import Mathlib

/-!
Verification of the bookbinder imposition core (`bookbinder/imposition/core.py`).

The Python module is a pure function pipeline over page tokens:
`insert_flyleafs → pad_to_multiple_of_four → split_signatures →
impose_signature(s)`.  Every function below is a direct shallow embedding of
the corresponding Python function; `ValueError` raising is modelled with
`Except String`, Python `int` parameters with `Int`, and Python sequences
with `List`.  Functions that never raise are total Lean functions.
-/

namespace Bookbinder

/-- Python `PageToken = int | BlankPageToken` where `BlankPageToken = str`:
a page token is either an integer page index or a string sentinel. -/
inductive PageToken where
  | page : Int → PageToken
  | blank : String → PageToken
deriving DecidableEq, Repr, Inhabited

/-- `BLANK_PAGE: BlankPageToken = "__BLANK_PAGE__"`. -/
def BLANK_PAGE : PageToken := .blank "__BLANK_PAGE__"

/-- `FOLIO_FRONT_MAPPING: tuple[int, int] = (3, 2)`. -/
def FOLIO_FRONT_MAPPING : Nat × Nat := (3, 2)

/-- `FOLIO_BACK_MAPPING: tuple[int, int] = (1, 4)`. -/
def FOLIO_BACK_MAPPING : Nat × Nat := (1, 4)

/-- `FOLIO_BACK_ROTATE_MAPPING: tuple[int, int] = (4, 1)`. -/
def FOLIO_BACK_ROTATE_MAPPING : Nat × Nat := (4, 1)

/-- The frozen dataclass `ImposedSide(face, left, right)`.  Kept polymorphic
in the token type, as the Python code never inspects the tokens it moves. -/
structure ImposedSide (α : Type) where
  face : String
  left : α
  right : α
deriving DecidableEq, Repr

/-- `insert_flyleafs(source_pages, flyleaf_sets, blank_token)`:
raises when `flyleaf_sets < 0`, otherwise surrounds the pages with
`flyleaf_sets * 2` blanks on each side. -/
def insert_flyleafs {α : Type} (source_pages : List α) (flyleaf_sets : Int)
    (blank_token : α) : Except String (List α) :=
  if flyleaf_sets < 0 then .error "flyleaf_sets must be >= 0"
  else
    let blanks_per_edge := (flyleaf_sets * 2).toNat
    .ok (List.replicate blanks_per_edge blank_token ++ source_pages ++
      List.replicate blanks_per_edge blank_token)

/-- `pad_to_multiple_of_four(pages, blank_token)`: appends `4 - len % 4`
blanks unless the length is already a multiple of four. -/
def pad_to_multiple_of_four {α : Type} (pages : List α) (blank_token : α) :
    List α :=
  let remainder := pages.length % 4
  if remainder = 0 then pages
  else pages ++ List.replicate (4 - remainder) blank_token

/-- `pages_per_signature(sig_length_sheets)`: raises when
`sig_length_sheets <= 0`, otherwise returns `sig_length_sheets * 4`. -/
def pages_per_signature (sig_length_sheets : Int) : Except String Int :=
  if sig_length_sheets ≤ 0 then .error "sig_length_sheets must be > 0"
  else .ok (sig_length_sheets * 4)

/-- The slicing loop of `split_signatures`:
`[pages[index : index + per] for index in range(0, len(pages), per)]`.
The fuel argument (instantiated with `pages.length`, which bounds the number
of loop iterations whenever `0 < per`) makes the recursion structural. -/
def sliceChunks {α : Type} (per : Nat) : Nat → List α → List (List α)
  | _, [] => []
  | 0, _ :: _ => []
  | fuel + 1, pages => pages.take per :: sliceChunks per fuel (pages.drop per)

/-- `split_signatures(ordered_pages, sig_length_sheets)`: validates that the
input length is a multiple of 4, slices it into chunks of
`pages_per_signature` tokens, and re-checks each chunk's length. -/
def split_signatures {α : Type} (ordered_pages : List α)
    (sig_length_sheets : Int) : Except String (List (List α)) :=
  (pages_per_signature sig_length_sheets).bind fun per_signature =>
    if ordered_pages.length % 4 ≠ 0 then
      .error "ordered_pages must be padded to a multiple of 4"
    else
      let signatures :=
        sliceChunks per_signature.toNat ordered_pages.length ordered_pages
      if signatures.any (fun signature => signature.length % 4 != 0) then
        .error "each signature must have a page count divisible by 4"
      else .ok signatures

/-- `build_ordered_pages(source_pages, flyleaf_sets, blank_token)`: flyleaf
insertion followed by padding.  The Python `source_pages` are plain `int`
page indices, injected here into the token union by `PageToken.page`. -/
def build_ordered_pages (source_pages : List Int) (flyleaf_sets : Int)
    (blank_token : PageToken) : Except String (List PageToken) :=
  (insert_flyleafs (source_pages.map PageToken.page) flyleaf_sets
    blank_token).bind fun with_flyleafs =>
      .ok (pad_to_multiple_of_four with_flyleafs blank_token)

/-- Indexing a quartet tuple at `pos - 1` for `pos` one of the folio-table
positions `1..4` (`quartet[left_pos - 1]` in `_pick_from_mapping`; the three
module mapping constants only ever supply those positions). -/
def quartetItem {α : Type} (quartet : α × α × α × α) : Nat → Option α
  | 1 => some quartet.1
  | 2 => some quartet.2.1
  | 3 => some quartet.2.2.1
  | 4 => some quartet.2.2.2
  | _ => none

/-- `_pick_from_mapping(quartet, mapping)`:
`(quartet[left_pos - 1], quartet[right_pos - 1])`. -/
def pick_from_mapping {α : Type} (quartet : α × α × α × α)
    (mapping : Nat × Nat) : Option (α × α) :=
  match quartetItem quartet mapping.1, quartetItem quartet mapping.2 with
  | some left, some right => some (left, right)
  | _, _ => none

/-- `_sheet_quartet(signature, sheet_index)` with `start = sheet_index * 2`:
`(signature[start+1], signature[start], signature[-(start+1)],
signature[-(start+2)])`.  Python's negative indices `-(start+1)` and
`-(start+2)` are written as `length - 1 - start` and `length - 2 - start`;
`none` models the out-of-range `IndexError`. -/
def sheet_quartet {α : Type} (signature : List α) (sheet_index : Nat) :
    Option (α × α × α × α) :=
  match signature[sheet_index * 2 + 1]?, signature[sheet_index * 2]?,
      signature[signature.length - 1 - sheet_index * 2]?,
      signature[signature.length - 2 - sheet_index * 2]? with
  | some left_inner, some right_outer, some left_outer, some right_inner =>
      some (left_inner, right_outer, left_outer, right_inner)
  | _, _, _, _ => none

/-- The `for sheet_index in range(sheets)` loop body of `impose_signature`,
emitting a front side then a back side for `remaining` sheets starting at
`sheet_index`. -/
def impose_sheets {α : Type} (signature : List α) (back_mapping : Nat × Nat) :
    Nat → Nat → Option (List (ImposedSide α))
  | _, 0 => some []
  | sheet_index, remaining + 1 =>
    match sheet_quartet signature sheet_index with
    | none => none
    | some quartet =>
      match pick_from_mapping quartet FOLIO_FRONT_MAPPING,
          pick_from_mapping quartet back_mapping with
      | some (front_left, front_right), some (back_left, back_right) =>
        match impose_sheets signature back_mapping (sheet_index + 1)
            remaining with
        | none => none
        | some rest =>
          some (ImposedSide.mk "front" front_left front_right ::
            ImposedSide.mk "back" back_left back_right :: rest)
      | _, _ => none

/-- `impose_signature(signature, duplex_rotate)`: raises when the length is
not divisible by 4, otherwise runs the sheet loop over
`sheets = len(signature) // 4` sheets with the rotate-dependent back
mapping.  (The loop's internal `Option` failure, an `IndexError` in Python,
is proved unreachable below.) -/
def impose_signature {α : Type} (signature : List α) (duplex_rotate : Bool) :
    Except String (List (ImposedSide α)) :=
  if signature.length % 4 ≠ 0 then
    .error "signature length must be divisible by 4"
  else
    let back_mapping :=
      if duplex_rotate then FOLIO_BACK_ROTATE_MAPPING else FOLIO_BACK_MAPPING
    match impose_sheets signature back_mapping 0 (signature.length / 4) with
    | some sides => .ok sides
    | none => .error "signature index out of range"

/-- `impose_signatures(signatures, duplex_rotate)`: concatenation of the
per-signature impositions in input order, propagating the first error. -/
def impose_signatures {α : Type} (signatures : List (List α))
    (duplex_rotate : Bool) : Except String (List (ImposedSide α)) :=
  match signatures with
  | [] => .ok []
  | signature :: rest =>
    (impose_signature signature duplex_rotate).bind fun sides =>
      (impose_signatures rest duplex_rotate).bind fun more =>
        .ok (sides ++ more)

/-- `x` is a raised error (a Python `ValueError`). -/
def raises {β : Type} (x : Except String β) : Prop :=
  ∃ e, x = Except.error e

/-- Spec-side description of the sides emitted for a signature `l` of
`s` sheets: for each sheet index `k` in ascending order, a front side
`(left, right) = (l[L-1-2k], l[2k])` followed by a back side
`(l[2k+1], l[L-2-2k])`, with left/right swapped on the back when
`duplex_rotate` holds.  (`d` is an arbitrary default; all indices are in
range when `L = 4s`.)  Written from the spec's §4.1 wording, to be compared
with `impose_signature`. -/
def folioSidesSpec {α : Type} (l : List α) (d : α) (rot : Bool) (s : Nat) :
    List (ImposedSide α) :=
  (List.range s).flatMap fun k =>
    [ImposedSide.mk "front" (l.getD (l.length - 1 - 2*k) d) (l.getD (2*k) d),
     if rot then
       ImposedSide.mk "back" (l.getD (l.length - 2 - 2*k) d)
         (l.getD (2*k + 1) d)
     else
       ImposedSide.mk "back" (l.getD (2*k + 1) d)
         (l.getD (l.length - 2 - 2*k) d)]

/-- All tokens of a list of sides, left before right, in side order. -/
def sideTokens {α : Type} (sides : List (ImposedSide α)) : List α :=
  sides.flatMap fun side => [side.left, side.right]

/-- The signature positions read by sheet `k` of a length-`L` signature, in
the order the tokens appear in its two sides. -/
def folioBlock (L : Nat) (rot : Bool) (k : Nat) : List Nat :=
  [L - 1 - 2*k, 2*k] ++
    (if rot then [L - 2 - 2*k, 2*k + 1] else [2*k + 1, L - 2 - 2*k])

/-- All signature positions read across the `s` sheets, in emission order. -/
def folioIdxs (L s : Nat) (rot : Bool) : List Nat :=
  (List.range s).flatMap (folioBlock L rot)

/-- The reference 9-page scenario's ordered page list:
`build_ordered_pages([0..8], flyleaf_sets=0)` — the nine pages padded with
three trailing blanks to 12 tokens. -/
def ninePageOrdered : List PageToken :=
  [.page 0, .page 1, .page 2, .page 3, .page 4, .page 5, .page 6, .page 7,
    .page 8, BLANK_PAGE, BLANK_PAGE, BLANK_PAGE]

/-- The sides obtained by imposing `ninePageOrdered` without duplex
rotation. -/
def ninePageSides : List (ImposedSide PageToken) :=
  [ImposedSide.mk "front" BLANK_PAGE (.page 0),
   ImposedSide.mk "back" (.page 1) BLANK_PAGE,
   ImposedSide.mk "front" BLANK_PAGE (.page 2),
   ImposedSide.mk "back" (.page 3) (.page 8),
   ImposedSide.mk "front" (.page 7) (.page 4),
   ImposedSide.mk "back" (.page 5) (.page 6)]

end Bookbinder

/-! ## Theorems -/

namespace Bookbinder

section Flyleafs

variable {α : Type}

/-- With a non-negative flyleaf count, `insert_flyleafs` succeeds with
`2 * flyleaf_sets` blanks on each side of the pages. -/
theorem insert_flyleafs_eq (pages : List α) (flyleaf_sets : Int)
    (blank : α) (hf : 0 ≤ flyleaf_sets) :
    insert_flyleafs pages flyleaf_sets blank =
      .ok (List.replicate (2 * flyleaf_sets.toNat) blank ++ pages ++
        List.replicate (2 * flyleaf_sets.toNat) blank) := by
  unfold insert_flyleafs
  rw [if_neg (by omega),
    show (flyleaf_sets * 2).toNat = 2 * flyleaf_sets.toNat from by omega]

/-- `pad_to_multiple_of_four` appends `(4 - len % 4) % 4` blanks. -/
theorem pad_eq (pages : List α) (blank : α) :
    pad_to_multiple_of_four pages blank =
      pages ++ List.replicate ((4 - pages.length % 4) % 4) blank := by
  unfold pad_to_multiple_of_four
  by_cases h : pages.length % 4 = 0
  · rw [if_pos h, h]
    simp
  · rw [if_neg h,
      show (4 - pages.length % 4) % 4 = 4 - pages.length % 4 from by omega]

/-- `pad_to_multiple_of_four` always yields a multiple-of-4 length. -/
theorem pad_length_mod (pages : List α) (blank : α) :
    (pad_to_multiple_of_four pages blank).length % 4 = 0 := by
  rw [pad_eq]
  simp only [List.length_append, List.length_replicate]
  omega

/-- **C5.** For every page list, every `flyleaf_sets ≥ 0` and every blank
token, `insert_flyleafs` succeeds with the list
`blanks ++ pages ++ blanks` where each side holds `2 * flyleaf_sets`
blanks: the length grows by `4 * flyleaf_sets`, the first and last
`2 * flyleaf_sets` tokens are the blank sentinel, and the middle is the
input unchanged. -/
theorem insert_flyleafs_spec (pages : List α) (flyleaf_sets : Int)
    (blank : α) (hf : 0 ≤ flyleaf_sets) :
    ∃ res, insert_flyleafs pages flyleaf_sets blank = .ok res ∧
      res = List.replicate (2 * flyleaf_sets.toNat) blank ++ pages ++
        List.replicate (2 * flyleaf_sets.toNat) blank ∧
      res.length = pages.length + 4 * flyleaf_sets.toNat ∧
      res.take (2 * flyleaf_sets.toNat) =
        List.replicate (2 * flyleaf_sets.toNat) blank ∧
      res.drop (pages.length + 2 * flyleaf_sets.toNat) =
        List.replicate (2 * flyleaf_sets.toNat) blank ∧
      (res.drop (2 * flyleaf_sets.toNat)).take pages.length = pages := by
  refine ⟨_, insert_flyleafs_eq pages flyleaf_sets blank hf, rfl, ?_, ?_,
    ?_, ?_⟩
  · simp only [List.length_append, List.length_replicate]
    omega
  · rw [List.append_assoc]
    exact List.take_left' (by simp)
  · rw [List.append_assoc, ← List.append_assoc]
    exact List.drop_left' (by simp; omega)
  · rw [List.append_assoc, List.drop_left' (by simp)]
    exact List.take_left' rfl

/-- Closed instance of `insert_flyleafs_spec` at `pages = [5, 7]`,
`flyleaf_sets = 1`. -/
theorem insert_flyleafs_spec_witness :
    ∃ res, insert_flyleafs ([5, 7] : List Int) 1 (-1) = .ok res ∧
      res = List.replicate (2 * (1 : Int).toNat) (-1) ++ [5, 7] ++
        List.replicate (2 * (1 : Int).toNat) (-1) ∧
      res.length = ([5, 7] : List Int).length + 4 * (1 : Int).toNat ∧
      res.take (2 * (1 : Int).toNat) =
        List.replicate (2 * (1 : Int).toNat) (-1) ∧
      res.drop (([5, 7] : List Int).length + 2 * (1 : Int).toNat) =
        List.replicate (2 * (1 : Int).toNat) (-1) ∧
      (res.drop (2 * (1 : Int).toNat)).take ([5, 7] : List Int).length =
        [5, 7] :=
  insert_flyleafs_spec [5, 7] 1 (-1) (by omega)

/-- **C6.** `pad_to_multiple_of_four` appends exactly
`(4 - len % 4) % 4` blanks at the end: the result length is a multiple of
4, at most 3 blanks are added, the original pages form the prefix, and an
already-aligned input is returned unchanged. -/
theorem pad_to_multiple_of_four_spec (pages : List α) (blank : α) :
    pad_to_multiple_of_four pages blank =
      pages ++ List.replicate ((4 - pages.length % 4) % 4) blank ∧
    (pad_to_multiple_of_four pages blank).length % 4 = 0 ∧
    pages.length ≤ (pad_to_multiple_of_four pages blank).length ∧
    (pad_to_multiple_of_four pages blank).length ≤ pages.length + 3 ∧
    (pad_to_multiple_of_four pages blank).take pages.length = pages ∧
    (pages.length % 4 = 0 → pad_to_multiple_of_four pages blank = pages) := by
  refine ⟨pad_eq pages blank, pad_length_mod pages blank, ?_, ?_, ?_, ?_⟩
  · rw [pad_eq]
    simp
  · rw [pad_eq]
    simp only [List.length_append, List.length_replicate]
    omega
  · rw [pad_eq]
    exact List.take_left' rfl
  · intro h
    rw [pad_eq, h]
    simp

end Flyleafs

end Bookbinder

namespace Bookbinder

section Splitting

variable {α : Type}

/-- `Except.bind` on a success just applies the continuation. -/
theorem ok_bind {β γ : Type} (a : β) (f : β → Except String γ) :
    (Except.ok a : Except String β).bind f = f a := rfl

/-- One unfolding step of the slicing loop on a nonempty list. -/
theorem sliceChunks_cons (per fuel : Nat) (a : α) (t : List α) :
    sliceChunks per (fuel + 1) (a :: t) =
      (a :: t).take per :: sliceChunks per fuel ((a :: t).drop per) := rfl

/-- With positive chunk size and enough fuel, concatenating the chunks
returns the input list. -/
theorem sliceChunks_flatten (per : Nat) (hper : 0 < per) :
    ∀ (fuel : Nat) (l : List α), l.length ≤ fuel →
      (sliceChunks per fuel l).flatten = l := by
  intro fuel
  induction fuel with
  | zero =>
    intro l hl
    cases l with
    | nil => rfl
    | cons a t => simp at hl
  | succ f ih =>
    intro l hl
    cases l with
    | nil => rfl
    | cons a t =>
      rw [sliceChunks_cons, List.flatten_cons,
        ih _ (by rw [List.length_drop]; simp at hl ⊢; omega)]
      exact List.take_append_drop per (a :: t)

/-- When the chunk size is a positive multiple of 4 and the input length is
a multiple of 4, every chunk is a nonempty multiple of 4. -/
theorem sliceChunks_chunk_mod (per : Nat) (hper : 0 < per)
    (hper4 : per % 4 = 0) :
    ∀ (fuel : Nat) (l : List α), l.length % 4 = 0 →
      ∀ c ∈ sliceChunks per fuel l, c.length % 4 = 0 ∧ 0 < c.length := by
  intro fuel
  induction fuel with
  | zero =>
    intro l h4 c hc
    cases l <;> simp [sliceChunks] at hc
  | succ f ih =>
    intro l h4 c hc
    cases l with
    | nil => simp [sliceChunks] at hc
    | cons a t =>
      rw [sliceChunks_cons] at hc
      rcases List.mem_cons.mp hc with rfl | hmem
      · rw [List.length_take]
        simp at h4 ⊢
        omega
      · exact ih _ (by rw [List.length_drop]; omega) c hmem

/-- Under valid arguments, `split_signatures` succeeds and returns exactly
the slicing of the input into `sig_length_sheets * 4`-token chunks. -/
theorem split_signatures_ok (pages : List α) (n : Int) (hn : 0 < n)
    (h4 : pages.length % 4 = 0) :
    split_signatures pages n =
      .ok (sliceChunks (n * 4).toNat pages.length pages) := by
  have hper : 0 < (n * 4).toNat := by omega
  have hper4 : (n * 4).toNat % 4 = 0 := by omega
  have hps : pages_per_signature n = .ok (n * 4) := by
    unfold pages_per_signature
    rw [if_neg (by omega)]
  have hany : (sliceChunks (n * 4).toNat pages.length pages).any
      (fun signature => signature.length % 4 != 0) = false := by
    rw [List.any_eq_false]
    intro c hc
    have := (sliceChunks_chunk_mod _ hper hper4 _ pages h4 c hc).1
    simp [this]
  unfold split_signatures
  rw [hps, ok_bind, if_neg (by omega)]
  simp only [hany]
  rfl

end Splitting

end Bookbinder

namespace Bookbinder

section Imposition

variable {α : Type}

/-- Front mapping `(3, 2)` picks `(left_outer, right_outer)`. -/
theorem pick_front (q : α × α × α × α) :
    pick_from_mapping q FOLIO_FRONT_MAPPING = some (q.2.2.1, q.2.1) := rfl

/-- Back mapping `(1, 4)` picks `(left_inner, right_inner)`. -/
theorem pick_back (q : α × α × α × α) :
    pick_from_mapping q FOLIO_BACK_MAPPING = some (q.1, q.2.2.2) := rfl

/-- Rotated back mapping `(4, 1)` picks `(right_inner, left_inner)`. -/
theorem pick_back_rotate (q : α × α × α × α) :
    pick_from_mapping q FOLIO_BACK_ROTATE_MAPPING = some (q.2.2.2, q.1) := rfl

/-- In-range sheet quartet, with all four reads expressed through `getD`. -/
theorem sheet_quartet_eq (l : List α) (d : α) (k : Nat)
    (h : 2 * k + 2 ≤ l.length) :
    sheet_quartet l k = some (l.getD (2*k + 1) d, l.getD (2*k) d,
      l.getD (l.length - 1 - 2*k) d, l.getD (l.length - 2 - 2*k) d) := by
  unfold sheet_quartet
  rw [Nat.mul_comm k 2]
  rw [List.getElem?_eq_getElem (show 2*k + 1 < l.length by omega),
    List.getElem?_eq_getElem (show 2*k < l.length by omega),
    List.getElem?_eq_getElem (show l.length - 1 - 2*k < l.length by omega),
    List.getElem?_eq_getElem (show l.length - 2 - 2*k < l.length by omega)]
  rw [List.getD_eq_getElem l d (show 2*k + 1 < l.length by omega),
    List.getD_eq_getElem l d (show 2*k < l.length by omega),
    List.getD_eq_getElem l d (show l.length - 1 - 2*k < l.length by omega),
    List.getD_eq_getElem l d (show l.length - 2 - 2*k < l.length by omega)]

/-- One unfolding step of the sheet loop. -/
theorem impose_sheets_succ (l : List α) (bm : Nat × Nat) (i c : Nat) :
    impose_sheets l bm i (c + 1) =
      match sheet_quartet l i with
      | none => none
      | some quartet =>
        match pick_from_mapping quartet FOLIO_FRONT_MAPPING,
            pick_from_mapping quartet bm with
        | some (front_left, front_right), some (back_left, back_right) =>
          match impose_sheets l bm (i + 1) c with
          | none => none
          | some rest =>
            some (ImposedSide.mk "front" front_left front_right ::
              ImposedSide.mk "back" back_left back_right :: rest)
        | _, _ => none := rfl

/-- Closed form of the sheet loop: for in-range sheet indices it succeeds
and emits, per sheet `k` in ascending order, the front side
`(l[L-1-2k], l[2k])` followed by the back side — `(l[2k+1], l[L-2-2k])`
plain, or swapped when rotating. -/
theorem impose_sheets_eq (l : List α) (d : α) (rot : Bool) :
    ∀ (count start : Nat), 2 * (start + count) ≤ l.length →
      impose_sheets l
          (if rot then FOLIO_BACK_ROTATE_MAPPING else FOLIO_BACK_MAPPING)
          start count =
        some ((List.range' start count).flatMap fun k =>
          [ImposedSide.mk "front" (l.getD (l.length - 1 - 2*k) d)
              (l.getD (2*k) d),
           if rot then
             ImposedSide.mk "back" (l.getD (l.length - 2 - 2*k) d)
               (l.getD (2*k + 1) d)
           else
             ImposedSide.mk "back" (l.getD (2*k + 1) d)
               (l.getD (l.length - 2 - 2*k) d)]) := by
  intro count
  induction count with
  | zero =>
    intro start h
    cases rot <;> rfl
  | succ c ih =>
    intro start h
    rw [impose_sheets_succ, sheet_quartet_eq l d start (by omega),
      ih (start + 1) (by omega)]
    cases rot <;> rfl

/-- `impose_signature` on a signature of `s` sheets succeeds and returns
exactly the spec-side folio layout. -/
theorem impose_signature_eq (l : List α) (d : α) (rot : Bool) (s : Nat)
    (h : l.length = 4 * s) :
    impose_signature l rot = .ok (folioSidesSpec l d rot s) := by
  have hs : l.length / 4 = s := by omega
  unfold impose_signature
  rw [if_neg (by omega), hs]
  show (match impose_sheets l
          (if rot = true then FOLIO_BACK_ROTATE_MAPPING else
            FOLIO_BACK_MAPPING) 0 s with
      | some sides => Except.ok sides
      | none => Except.error "signature index out of range") =
    Except.ok (folioSidesSpec l d rot s)
  rw [impose_sheets_eq l d rot s 0 (by omega)]
  rw [folioSidesSpec, List.range_eq_range']

end Imposition

end Bookbinder

namespace Bookbinder

section TokenPerm

variable {α : Type}

/-- Reading every position of `l` in order rebuilds `l`. -/
theorem map_getD_range (l : List α) (d : α) :
    (List.range l.length).map (fun i => l.getD i d) = l := by
  induction l with
  | nil => rfl
  | cons a t ih =>
    rw [List.length_cons, List.range_succ_eq_map, List.map_cons, List.map_map]
    have he : ((fun i => (a :: t).getD i d) ∘ Nat.succ) =
        fun i => t.getD i d := by
      funext i
      simp [List.getD]
    rw [he, ih]
    rfl

/-- The tokens of the folio layout are the signature values read at the
`folioIdxs` positions, in order. -/
theorem sideTokens_folioSidesSpec (l : List α) (d : α) (rot : Bool)
    (s : Nat) :
    sideTokens (folioSidesSpec l d rot s) =
      (folioIdxs l.length s rot).map (fun i => l.getD i d) := by
  unfold sideTokens folioSidesSpec folioIdxs
  rw [List.flatMap_assoc, List.map_flatMap]
  apply List.flatMap_congr
  intro k _
  cases rot <;> simp [folioBlock]

/-- Sheet `k + 1` of a `4(m+1)`-token signature reads the same positions as
sheet `k` of the inner `4m`-token signature, shifted by the two outer
tokens at each end. -/
theorem folioBlock_succ (m : Nat) (rot : Bool) (k : Nat) (hk : k < m) :
    folioBlock (4 * (m + 1)) rot (k + 1) =
      (folioBlock (4 * m) rot k).map (fun i => i + 2) := by
  cases rot <;> simp [folioBlock] <;> omega

/-- Unfolding `folioIdxs` one signature layer: the outermost sheet's
positions, then the inner signature's positions shifted by 2. -/
theorem folioIdxs_succ (m : Nat) (rot : Bool) :
    folioIdxs (4 * (m + 1)) (m + 1) rot =
      folioBlock (4 * (m + 1)) rot 0 ++
        (folioIdxs (4 * m) m rot).map (fun i => i + 2) := by
  unfold folioIdxs
  rw [List.range_succ_eq_map, List.flatMap_cons, List.flatMap_map,
    List.map_flatMap]
  congr 1
  apply List.flatMap_congr
  intro k hk
  exact folioBlock_succ m rot k (List.mem_range.mp hk)

/-- `range (n + 4)` split as first two, shifted middle, last two. -/
theorem range_four_decomp (n : Nat) :
    List.range (n + 4) =
      0 :: 1 :: ((List.range n).map (fun i => i + 2) ++ [n + 2, n + 3]) := by
  rw [show n + 4 = (n + 3) + 1 from rfl, List.range_succ,
    show n + 3 = (n + 2) + 1 from rfl, List.range_succ,
    show n + 2 = (n + 1) + 1 from rfl, List.range_succ_eq_map,
    List.range_succ_eq_map, List.map_cons, List.map_map]
  simp [Function.comp_def, Nat.succ_eq_add_one]

/-- The positions read across all sheets are a permutation of all the
signature's positions. -/
theorem folioIdxs_perm (rot : Bool) (s : Nat) :
    (folioIdxs (4 * s) s rot).Perm (List.range (4 * s)) := by
  induction s with
  | zero => rfl
  | succ m ih =>
    rw [folioIdxs_succ]
    have hblock : (folioBlock (4 * (m + 1)) rot 0).Perm
        [4*m + 3, 0, 1, 4*m + 2] := by
      have hb : folioBlock (4 * (m + 1)) rot 0 =
          [4*m + 3, 0] ++ (if rot then [4*m + 2, 1] else [1, 4*m + 2]) := by
        cases rot <;> simp [folioBlock] <;> omega
      rw [hb]
      cases rot
      · exact List.Perm.refl _
      · exact ((List.Perm.swap 1 (4*m + 2) []).cons 0).cons (4*m + 3)
    have h1 : (folioBlock (4 * (m + 1)) rot 0 ++
          (folioIdxs (4 * m) m rot).map (fun i => i + 2)).Perm
        ([4*m + 3, 0, 1, 4*m + 2] ++
          (List.range (4 * m)).map (fun i => i + 2)) :=
      List.Perm.append hblock (ih.map _)
    have h2 : ([4*m + 3, 0, 1, 4*m + 2] ++
          (List.range (4 * m)).map (fun i => i + 2)).Perm
        ([0, 1, 4*m + 2, 4*m + 3] ++
          (List.range (4 * m)).map (fun i => i + 2)) :=
      List.Perm.append_right _
        (@List.perm_append_comm Nat [4*m + 3] [0, 1, 4*m + 2])
    have h3 : ([0, 1, 4*m + 2, 4*m + 3] ++
          (List.range (4 * m)).map (fun i => i + 2)).Perm
        (List.range (4 * (m + 1))) := by
      rw [show 4 * (m + 1) = 4*m + 4 from by omega, range_four_decomp]
      exact (@List.perm_append_comm Nat [4*m + 2, 4*m + 3]
        ((List.range (4 * m)).map (fun i => i + 2))).cons 1 |>.cons 0
    exact (h1.trans h2).trans h3

end TokenPerm

end Bookbinder

namespace Bookbinder

section ImposeOk

variable {α : Type}

/-- The folio layout's tokens are a permutation of the signature. -/
theorem impose_tokens_perm (l : List α) (d : α) (rot : Bool) (s : Nat)
    (h : l.length = 4 * s) :
    (sideTokens (folioSidesSpec l d rot s)).Perm l := by
  rw [sideTokens_folioSidesSpec, h]
  have h2 : (List.range (4 * s)).map (fun i => l.getD i d) = l := by
    rw [← h]
    exact map_getD_range l d
  refine ((folioIdxs_perm rot s).map (fun i => l.getD i d)).trans ?_
  rw [h2]

/-- On any signature whose length is a multiple of 4, `impose_signature`
succeeds, and the emitted tokens are a permutation of the signature. -/
theorem impose_signature_ok (sig : List α) (rot : Bool)
    (h4 : sig.length % 4 = 0) :
    ∃ sides, impose_signature sig rot = .ok sides ∧
      (sideTokens sides).Perm sig := by
  cases sig with
  | nil =>
    refine ⟨[], ?_, List.Perm.refl _⟩
    simp only [impose_signature, List.length_nil]
    rfl
  | cons a t =>
    obtain ⟨s, hs⟩ : ∃ s, (a :: t).length = 4 * s :=
      ⟨(a :: t).length / 4, by omega⟩
    exact ⟨_, impose_signature_eq (a :: t) a rot s hs,
      impose_tokens_perm (a :: t) a rot s hs⟩

end ImposeOk

section ClaimsA

variable {α : Type}

/-- **C1.** For a signature of length `L = 4s` (`L` divisible by 4),
`impose_signature` succeeds and returns, for each sheet index `k < s` in
ascending order, a front side `(left, right) = (l[L-1-2k], l[2k])`
(quartet positions `(3, 2)` of `(l[2k+1], l[2k], l[L-1-2k], l[L-2-2k])`)
followed by a back side `(l[2k+1], l[L-2-2k])` when not rotating (positions
`(1, 4)`) and `(l[L-2-2k], l[2k+1])` when rotating (positions `(4, 1)`) —
i.e. exactly `folioSidesSpec` — and the output has exactly `L / 2` sides. -/
theorem impose_signature_folio (l : List α) (d : α) (rot : Bool) (s : Nat)
    (h : l.length = 4 * s) :
    impose_signature l rot = .ok (folioSidesSpec l d rot s) ∧
      (folioSidesSpec l d rot s).length = l.length / 2 := by
  refine ⟨impose_signature_eq l d rot s h, ?_⟩
  unfold folioSidesSpec
  rw [List.length_flatMap]
  simp only [Function.comp_def, List.length_cons, List.length_nil]
  rw [List.map_const', List.sum_replicate, List.length_range, smul_eq_mul]
  omega

/-- Closed instance of `impose_signature_folio` on `[0, 1, 2, 3]`. -/
theorem impose_signature_folio_witness :
    impose_signature ([0, 1, 2, 3] : List Int) false =
        .ok (folioSidesSpec [0, 1, 2, 3] 0 false 1) ∧
      (folioSidesSpec ([0, 1, 2, 3] : List Int) 0 false 1).length =
        ([0, 1, 2, 3] : List Int).length / 2 :=
  impose_signature_folio [0, 1, 2, 3] 0 false 1 rfl

/-- **C3.** On the signature `[0..7]`, the non-rotated sides are
`(7,0), (1,6), (5,2), (3,4)` and the rotated sides are
`(7,0), (6,1), (5,2), (4,3)`, in those orders. -/
theorem impose_signature_example_pairs :
    impose_signature ([0, 1, 2, 3, 4, 5, 6, 7] : List Int) false =
      .ok [ImposedSide.mk "front" 7 0, ImposedSide.mk "back" 1 6,
        ImposedSide.mk "front" 5 2, ImposedSide.mk "back" 3 4] ∧
    impose_signature ([0, 1, 2, 3, 4, 5, 6, 7] : List Int) true =
      .ok [ImposedSide.mk "front" 7 0, ImposedSide.mk "back" 6 1,
        ImposedSide.mk "front" 5 2, ImposedSide.mk "back" 4 3] :=
  ⟨rfl, rfl⟩

/-- **C9.** For any signature whose length is a multiple of 4 and either
rotate flag, the multiset of all left/right tokens across the emitted
sides equals the multiset of the signature's tokens. -/
theorem impose_signature_token_multiset (l : List α) (rot : Bool) (s : Nat)
    (h : l.length = 4 * s) :
    ∃ sides, impose_signature l rot = .ok sides ∧
      (sideTokens sides : Multiset α) = (l : Multiset α) := by
  obtain ⟨sides, hok, hperm⟩ := impose_signature_ok l rot (by omega)
  exact ⟨sides, hok, Multiset.coe_eq_coe.mpr hperm⟩

/-- Closed instance of `impose_signature_token_multiset` on `[4, 5, 6, 7]`,
rotated. -/
theorem impose_signature_token_multiset_witness :
    ∃ sides, impose_signature ([4, 5, 6, 7] : List Int) true = .ok sides ∧
      (sideTokens sides : Multiset Int) = ([4, 5, 6, 7] : List Int) :=
  impose_signature_token_multiset [4, 5, 6, 7] true 1 rfl

/-- **C4.** For pages whose length is a multiple of 4 and any
`sig_length_sheets > 0`, splitting succeeds, concatenating the returned
signatures reproduces the input exactly, and every returned signature has
a positive length divisible by 4. -/
theorem split_signatures_roundtrip (pages : List α) (n : Int) (hn : 0 < n)
    (h4 : pages.length % 4 = 0) :
    ∃ sigs, split_signatures pages n = .ok sigs ∧
      sigs.flatten = pages ∧
      ∀ sig ∈ sigs, sig.length % 4 = 0 ∧ 0 < sig.length := by
  refine ⟨_, split_signatures_ok pages n hn h4, ?_, ?_⟩
  · exact sliceChunks_flatten _ (by omega) _ _ le_rfl
  · exact sliceChunks_chunk_mod _ (by omega) (by omega) _ _ h4

/-- Closed instance of `split_signatures_roundtrip` on `[0..7]` with one
sheet per signature. -/
theorem split_signatures_roundtrip_witness :
    ∃ sigs, split_signatures ([0, 1, 2, 3, 4, 5, 6, 7] : List Int) 1 =
        .ok sigs ∧
      sigs.flatten = [0, 1, 2, 3, 4, 5, 6, 7] ∧
      ∀ sig ∈ sigs, sig.length % 4 = 0 ∧ 0 < sig.length :=
  split_signatures_roundtrip [0, 1, 2, 3, 4, 5, 6, 7] 1 (by omega) rfl

/-- **C10.** For every input and every `sig_length_sheets > 0`, the
per-chunk error branch of `split_signatures` is unreachable: once the
whole-input multiple-of-4 check passes, every chunk's length is a multiple
of 4, so the error it would raise is never returned. -/
theorem split_chunk_error_unreachable (pages : List α) (n : Int)
    (hn : 0 < n) :
    split_signatures pages n ≠
      .error "each signature must have a page count divisible by 4" := by
  by_cases h4 : pages.length % 4 = 0
  · rw [split_signatures_ok pages n hn h4]
    simp
  · have hps : pages_per_signature n = .ok (n * 4) := by
      unfold pages_per_signature
      rw [if_neg (by omega)]
    unfold split_signatures
    rw [hps, ok_bind, if_pos h4]
    simp

/-- Closed instance of `split_chunk_error_unreachable` on a misaligned
input. -/
theorem split_chunk_error_unreachable_witness :
    split_signatures ([0, 1] : List Int) 1 ≠
      .error "each signature must have a page count divisible by 4" :=
  split_chunk_error_unreachable [0, 1] 1 (by omega)

end ClaimsA

end Bookbinder

namespace Bookbinder

section ClaimsB

variable {α : Type}

/-- **C2 (counterexample).** In the reference 9-page scenario
(`flyleaf_sets = 0`, `sig_length_sheets = 6`, non-rotated), the pipeline
produces a single 12-token signature, but the first sheet's back side is
`(1, BLANK)` — not `(BLANK, 0)` as the claim states (that pair is the
first sheet's front side). -/
theorem nine_page_first_back_counterexample :
    build_ordered_pages ((List.range 9).map Int.ofNat) 0
        BLANK_PAGE = .ok ninePageOrdered ∧
    split_signatures ninePageOrdered 6 = .ok [ninePageOrdered] ∧
    impose_signature ninePageOrdered false = .ok ninePageSides ∧
    ninePageSides[1]? = some (ImposedSide.mk "back" (.page 1) BLANK_PAGE) ∧
    ninePageSides[1]? ≠ some (ImposedSide.mk "back" BLANK_PAGE (.page 0)) :=
  ⟨rfl, rfl, rfl, rfl, by decide⟩

/-- **C2 (amended).** End-to-end, the 9-page source document with
`flyleaf_sets = 0` and `sig_length_sheets = 6`, imposed with
`duplex_rotate = False`, yields a single signature of 12 tokens whose
first sheet's front side has `(left, right) = (BLANK, 0)` and whose first
sheet's back side has `(left, right) = (1, BLANK)`. -/
theorem nine_page_pipeline :
    build_ordered_pages ((List.range 9).map Int.ofNat) 0
        BLANK_PAGE = .ok ninePageOrdered ∧
    ninePageOrdered.length = 12 ∧
    split_signatures ninePageOrdered 6 = .ok [ninePageOrdered] ∧
    impose_signature ninePageOrdered false = .ok ninePageSides ∧
    ninePageSides[0]? = some (ImposedSide.mk "front" BLANK_PAGE (.page 0)) ∧
    ninePageSides[1]? = some (ImposedSide.mk "back" (.page 1) BLANK_PAGE) :=
  ⟨rfl, rfl, rfl, rfl, rfl, rfl⟩

/-- **C7.** Each core function raises exactly when its precondition is
violated and never otherwise: `insert_flyleafs` iff `flyleaf_sets < 0`;
`pages_per_signature` iff `sig_length_sheets ≤ 0` (otherwise returning
`sig_length_sheets * 4`); `split_signatures` (given
`sig_length_sheets > 0`) iff the input length is not a multiple of 4;
`impose_signature` iff the signature length is not a multiple of 4.  In
the `Except` embedding an error result carries no output, so no partial
output is produced in any raising case. -/
theorem error_conditions (α : Type) :
    (∀ (pages : List α) (flyleaf_sets : Int) (blank : α),
        raises (insert_flyleafs pages flyleaf_sets blank) ↔
          flyleaf_sets < 0) ∧
    (∀ n : Int, (raises (pages_per_signature n) ↔ n ≤ 0) ∧
        (0 < n → pages_per_signature n = .ok (n * 4))) ∧
    (∀ (pages : List α) (n : Int), 0 < n →
        (raises (split_signatures pages n) ↔ pages.length % 4 ≠ 0)) ∧
    (∀ (sig : List α) (rot : Bool),
        raises (impose_signature sig rot) ↔ sig.length % 4 ≠ 0) := by
  have hps : ∀ n : Int, 0 < n → pages_per_signature n = .ok (n * 4) := by
    intro n hn
    unfold pages_per_signature
    rw [if_neg (by omega)]
  refine ⟨?_, ?_, ?_, ?_⟩
  · intro pages f blank
    unfold insert_flyleafs
    by_cases hf : f < 0
    · rw [if_pos hf]
      exact ⟨fun _ => hf, fun _ => ⟨_, rfl⟩⟩
    · rw [if_neg hf]
      exact ⟨fun ⟨e, he⟩ => Except.noConfusion he, fun h => absurd h hf⟩
  · intro n
    refine ⟨?_, hps n⟩
    unfold pages_per_signature
    by_cases hn : n ≤ 0
    · rw [if_pos hn]
      exact ⟨fun _ => hn, fun _ => ⟨_, rfl⟩⟩
    · rw [if_neg hn]
      exact ⟨fun ⟨e, he⟩ => Except.noConfusion he, fun h => absurd h hn⟩
  · intro pages n hn
    constructor
    · intro hr
      by_contra h4
      rw [split_signatures_ok pages n hn (by omega)] at hr
      obtain ⟨e, he⟩ := hr
      exact Except.noConfusion he
    · intro h4
      unfold split_signatures
      rw [hps n hn, ok_bind, if_pos h4]
      exact ⟨_, rfl⟩
  · intro sig rot
    constructor
    · intro hr
      by_contra h4
      obtain ⟨sides, hok, _⟩ := impose_signature_ok sig rot (by omega)
      obtain ⟨e, he⟩ := hr
      rw [hok] at he
      exact Except.noConfusion he
    · intro h4
      unfold impose_signature
      rw [if_pos h4]
      exact ⟨_, rfl⟩

/-- Closed instance of `error_conditions`: a length-3 signature is
rejected by `impose_signature`. -/
theorem error_conditions_witness :
    raises (impose_signature ([0, 1, 2] : List Int) false) :=
  ((error_conditions Int).2.2.2 [0, 1, 2] false).mpr (by decide)

end ClaimsB

end Bookbinder

namespace Bookbinder

section ClaimsC

variable {α : Type}

/-- Under `flyleaf_sets ≥ 0`, `build_ordered_pages` on the page indices
`[0 .. page_count)` succeeds, the result's length is a multiple of 4, and
every token is either a page index below `page_count` or the blank
sentinel. -/
theorem build_ordered_pages_tokens (page_count : Nat) (flyleaf_sets : Int)
    (hf : 0 ≤ flyleaf_sets) :
    ∃ ordered,
      build_ordered_pages ((List.range page_count).map Int.ofNat)
          flyleaf_sets BLANK_PAGE = .ok ordered ∧
      ordered.length % 4 = 0 ∧
      ∀ t ∈ ordered, (∃ i : Nat, i < page_count ∧ t = .page (Int.ofNat i)) ∨
        t = BLANK_PAGE := by
  have hok := insert_flyleafs_eq
    (((List.range page_count).map Int.ofNat).map PageToken.page)
    flyleaf_sets BLANK_PAGE hf
  unfold build_ordered_pages
  rw [hok, ok_bind]
  refine ⟨_, rfl, pad_length_mod _ BLANK_PAGE, ?_⟩
  intro t ht
  rw [pad_eq] at ht
  rcases List.mem_append.mp ht with hin | hrep
  · rcases List.mem_append.mp hin with h1 | h2
    · rcases List.mem_append.mp h1 with h1a | h1b
      · exact Or.inr (List.mem_replicate.mp h1a).2
      · left
        obtain ⟨j, hj, hjt⟩ := List.mem_map.mp h1b
        obtain ⟨i, hi, hij⟩ := List.mem_map.mp hj
        exact ⟨i, List.mem_range.mp hi, by rw [← hjt, ← hij]⟩
    · exact Or.inr (List.mem_replicate.mp h2).2
  · exact Or.inr (List.mem_replicate.mp hrep).2

/-- One unfolding step of `impose_signatures`. -/
theorem impose_signatures_cons (sig : List α) (rest : List (List α))
    (rot : Bool) :
    impose_signatures (sig :: rest) rot =
      (impose_signature sig rot).bind fun sides =>
        (impose_signatures rest rot).bind fun more =>
          .ok (sides ++ more) := rfl

/-- When all signatures have lengths divisible by 4, `impose_signatures`
succeeds and every emitted side's tokens come from one of the
signatures. -/
theorem impose_signatures_ok (sigs : List (List α)) (rot : Bool)
    (h : ∀ sig ∈ sigs, sig.length % 4 = 0) :
    ∃ sides, impose_signatures sigs rot = .ok sides ∧
      ∀ side ∈ sides, ∃ sig ∈ sigs, side.left ∈ sig ∧ side.right ∈ sig := by
  induction sigs with
  | nil =>
    refine ⟨[], rfl, ?_⟩
    intro side hs
    simp at hs
  | cons sig rest ih =>
    obtain ⟨sides, hok, hperm⟩ :=
      impose_signature_ok sig rot (h sig (by simp))
    obtain ⟨more, hok2, hmem2⟩ := ih (fun s hs => h s (by simp [hs]))
    refine ⟨sides ++ more, ?_, ?_⟩
    · rw [impose_signatures_cons, hok, ok_bind, hok2, ok_bind]
    · intro side hs
      rcases List.mem_append.mp hs with h1 | h2
      · have hl : side.left ∈ sideTokens sides :=
          List.mem_flatMap.mpr ⟨side, h1, by simp⟩
        have hr : side.right ∈ sideTokens sides :=
          List.mem_flatMap.mpr ⟨side, h1, by simp⟩
        exact ⟨sig, by simp, hperm.mem_iff.mp hl, hperm.mem_iff.mp hr⟩
      · obtain ⟨sig2, hsig2, hl, hr⟩ := hmem2 side h2
        exact ⟨sig2, by simp [hsig2], hl, hr⟩

/-- **C8.** For every `page_count ≥ 0`, `flyleaf_sets ≥ 0`,
`sig_length_sheets > 0` and rotate flag, the full pipeline
`build_ordered_pages → split_signatures → impose_signatures` succeeds and
every emitted side's `left` and `right` are each either a page index in
`[0, page_count)` or exactly the blank sentinel. -/
theorem imposed_tokens_valid (page_count : Nat) (flyleaf_sets n : Int)
    (rot : Bool) (hf : 0 ≤ flyleaf_sets) (hn : 0 < n) :
    ∃ ordered sigs sides,
      build_ordered_pages ((List.range page_count).map Int.ofNat)
          flyleaf_sets BLANK_PAGE = .ok ordered ∧
      split_signatures ordered n = .ok sigs ∧
      impose_signatures sigs rot = .ok sides ∧
      ∀ side ∈ sides,
        ((∃ i : Nat, i < page_count ∧ side.left = .page (Int.ofNat i)) ∨
          side.left = BLANK_PAGE) ∧
        ((∃ i : Nat, i < page_count ∧ side.right = .page (Int.ofNat i)) ∨
          side.right = BLANK_PAGE) := by
  obtain ⟨ordered, hbuild, h4, htok⟩ :=
    build_ordered_pages_tokens page_count flyleaf_sets hf
  have hjoin : (sliceChunks (n * 4).toNat ordered.length ordered).flatten =
      ordered :=
    sliceChunks_flatten _ (by omega) _ _ le_rfl
  have hmod : ∀ sig ∈ sliceChunks (n * 4).toNat ordered.length ordered,
      sig.length % 4 = 0 :=
    fun sig hs => (sliceChunks_chunk_mod _ (by omega) (by omega) _ _ h4
      sig hs).1
  obtain ⟨sides, hok, hmem⟩ := impose_signatures_ok _ rot hmod
  refine ⟨ordered, _, sides, hbuild, split_signatures_ok ordered n hn h4,
    hok, ?_⟩
  intro side hside
  obtain ⟨sig, hsig, hl, hr⟩ := hmem side hside
  have hsub : ∀ t, t ∈ sig → t ∈ ordered := fun t ht => by
    rw [← hjoin]
    exact List.mem_flatten.mpr ⟨sig, hsig, ht⟩
  exact ⟨htok _ (hsub _ hl), htok _ (hsub _ hr)⟩

/-- Closed instance of `imposed_tokens_valid` for a 2-page document,
no flyleafs, one sheet per signature. -/
theorem imposed_tokens_valid_witness :
    ∃ ordered sigs sides,
      build_ordered_pages ((List.range 2).map Int.ofNat) 0
          BLANK_PAGE = .ok ordered ∧
      split_signatures ordered 1 = .ok sigs ∧
      impose_signatures sigs false = .ok sides ∧
      ∀ side ∈ sides,
        ((∃ i : Nat, i < 2 ∧ side.left = .page (Int.ofNat i)) ∨
          side.left = BLANK_PAGE) ∧
        ((∃ i : Nat, i < 2 ∧ side.right = .page (Int.ofNat i)) ∨
          side.right = BLANK_PAGE) :=
  imposed_tokens_valid 2 0 1 false (by omega) (by omega)

end ClaimsC

end Bookbinder
